import Mathlib

/-!
Shallow embedding of the SQL_Agent repository core (schema materializer,
agent loop, response parser, SQL safety validator, query execution bridge)
together with theorems settling the specification claims.

Strings are modelled as Lean `String`s; where character-level scanning is
needed we work on `String.data : List Char`.  JavaScript's `trim`,
`toUpperCase` (on the ASCII range), regex word-boundary tests, the naive
quote-stripping `replace` calls and fenced-block extraction are each given
an executable Lean counterpart translated from the source.
-/

/-! ## Generic list/string helpers -/

/-- `startsWithList l p` : `p` is a prefix of `l` (character lists). -/
def startsWithList : List Char → List Char → Bool
  | _, [] => true
  | [], _ :: _ => false
  | c :: cs, p :: ps => c == p && startsWithList cs ps

/-- `containsSub l p` : `p` occurs as a contiguous substring of `l`. -/
def containsSub : List Char → List Char → Bool
  | [], p => startsWithList [] p
  | c :: rest, p => startsWithList (c :: rest) p || containsSub rest p

/-- Split on the first occurrence of `pat`: returns the part before the
first occurrence and the part after it, or `none` when `pat` never occurs. -/
def splitOnFirst (pat : List Char) : List Char → Option (List Char × List Char)
  | [] => if startsWithList [] pat then some ([], []) else none
  | c :: rest =>
    if startsWithList (c :: rest) pat then some ([], (c :: rest).drop pat.length)
    else
      match splitOnFirst pat rest with
      | some (a, b) => some (c :: a, b)
      | none => none

/-- The whitespace class stripped by JavaScript `String.prototype.trim`
(restricted to its ASCII members, the ones relevant to SQL text). -/
def isJsWs (c : Char) : Bool :=
  c == ' ' || c == '\t' || c == '\n' || c == '\r' || c == '\x0b' || c == '\x0c'

/-- JavaScript `trim` on a character list: drop whitespace from both ends. -/
def jsTrimList (l : List Char) : List Char :=
  ((l.dropWhile isJsWs).reverse.dropWhile isJsWs).reverse

/-- JavaScript `trim` on a `String`. -/
def jsTrimStr (s : String) : String :=
  String.mk (jsTrimList s.data)

/-- The single-quote character (ASCII 39). -/
def squote : Char := Char.ofNat 39

/-- The double-quote character. -/
def dquote : Char := '"'

/-- Concatenation of the rendered pieces of a list (the `+=`-in-a-loop
string building pattern of the source). -/
def concatMap (f : α → String) : List α → String
  | [] => ""
  | x :: xs => f x ++ concatMap f xs

/-- JavaScript `Array.prototype.join(sep)`. -/
def joinSep (sep : String) : List String → String
  | [] => ""
  | [x] => x
  | x :: y :: xs => x ++ sep ++ joinSep sep (y :: xs)

/-! ## SQL safety validator (src/lib/agent.ts, `validateSqlQuery`) -/

/-- Source line 146: `sql.trim().toUpperCase()`.  `Char.toUpper` agrees with
JavaScript `toUpperCase` on the ASCII range. -/
def normalizeSql (sql : String) : List Char :=
  (jsTrimList sql.data).map Char.toUpper

/-- Source line 149: the query must start with `SELECT` or `WITH`. -/
def startOk (trimmed : List Char) : Bool :=
  startsWithList trimmed "SELECT".data || startsWithList trimmed "WITH".data

/-- Source lines 157-161: the forbidden-keyword list, in source order. -/
def dangerousKeywords : List String :=
  ["INSERT", "UPDATE", "DELETE", "DROP", "TRUNCATE", "ALTER",
   "CREATE", "GRANT", "REVOKE", "EXECUTE", "EXEC", "CALL",
   "SET", "COPY", "LOAD", "VACUUM", "REINDEX", "CLUSTER"]

/-- Word characters of the JavaScript regex `\b` boundary class
(`[A-Za-z0-9_]`). -/
def isWordChar (c : Char) : Bool :=
  (c ≥ 'A' && c ≤ 'Z') || (c ≥ 'a' && c ≤ 'z') || (c ≥ '0' && c ≤ '9') || c == '_'

/-- Scan for a `\bkw\b` match; `prev` is the character before the current
position (`none` at the start of the string). -/
def hasWordAux (kw : List Char) : Option Char → List Char → Bool
  | _, [] => false
  | prev, c :: rest =>
    (startsWithList (c :: rest) kw &&
      (match prev with
       | none => true
       | some p => !isWordChar p) &&
      (match (c :: rest).drop kw.length with
       | [] => true
       | d :: _ => !isWordChar d))
    || hasWordAux kw (some c) rest

/-- Source line 165-166: `new RegExp(`\\b${keyword}\\b`, `i`).test(trimmed)`.
The input is already uppercased, so the case-insensitive flag is absorbed by
matching the uppercase keyword. -/
def hasWordMatch (l kw : List Char) : Bool := hasWordAux kw none l

/-- Source lines 163-172: the first keyword (in list order) that matches as a
whole word, if any. -/
def findDangerous (trimmed : List Char) : Option String :=
  dangerousKeywords.find? (fun kw => hasWordMatch trimmed kw.data)

/-- One pass of `replace(/q[^q]*q/g, "")`: left-to-right removal of every
complete `q`-to-`q` span; an unmatched final opening quote is kept verbatim.
`buf` holds the characters (reversed) since an unmatched opening quote. -/
def stripQuotedAux (q : Char) : List Char → Option (List Char) → List Char
  | [], none => []
  | [], some b => b.reverse
  | c :: rest, none =>
    if c == q then stripQuotedAux q rest (some [c]) else c :: stripQuotedAux q rest none
  | c :: rest, some b =>
    if c == q then stripQuotedAux q rest none else stripQuotedAux q rest (some (c :: b))

/-- `trimmed.replace(/q[^q]*q/g, "")` for a quote character `q`. -/
def stripQuoted (q : Char) (l : List Char) : List Char :=
  stripQuotedAux q l none

/-- Source line 176: strip single-quoted spans, then double-quoted spans. -/
def stripQuotes (l : List Char) : List Char :=
  stripQuoted dquote (stripQuoted squote l)

/-- The validator's result (`{ valid: boolean; error?: string }`). -/
structure ValidationOutcome where
  valid : Bool
  error : Option String
deriving Repr, DecidableEq

/-- Source line 152. -/
def startRuleMsg : String :=
  "Only SELECT queries are allowed. Query must start with SELECT or WITH."

/-- Source line 169. -/
def keywordRuleMsg (kw : String) : String :=
  "Query contains forbidden keyword: " ++ kw ++ ". Only SELECT queries are allowed."

/-- Source line 180. -/
def multiStmtMsg : String := "Multiple SQL statements are not allowed."

/-- Source line 188. -/
def commentsMsg : String := "SQL comments are not allowed."

/-- Source lines 145-193: `validateSqlQuery`, a sequential rule pipeline.
The first failing rule determines the outcome. -/
def validateSqlQuery (sql : String) : ValidationOutcome :=
  let trimmed := normalizeSql sql
  if !startOk trimmed then
    { valid := false, error := some startRuleMsg }
  else
    match findDangerous trimmed with
    | some kw => { valid := false, error := some (keywordRuleMsg kw) }
    | none =>
      if (stripQuotes trimmed).contains ';' then
        { valid := false, error := some multiStmtMsg }
      else if containsSub trimmed "--".data || containsSub trimmed "/*".data then
        { valid := false, error := some commentsMsg }
      else
        { valid := true, error := none }

example : (validateSqlQuery "SELECT id, name FROM users LIMIT 10").valid = true := by decide
example : validateSqlQuery "DROP TABLE users;" =
    { valid := false, error := some startRuleMsg } := by decide
example : validateSqlQuery "SELECT 1; SELECT 2;" =
    { valid := false, error := some multiStmtMsg } := by decide
example : (validateSqlQuery ("SELECT " ++ String.mk [squote] ++ "a;b" ++ String.mk [squote])).valid
    = true := by decide
example : validateSqlQuery "SELECT 1; DROP TABLE T" =
    { valid := false, error := some (keywordRuleMsg "DROP") } := by decide
example : validateSqlQuery "SELECT 1; --" =
    { valid := false, error := some multiStmtMsg } := by decide
example : validateSqlQuery "SELECT a -- b" =
    { valid := false, error := some commentsMsg } := by decide

/-! ## Response parser (src/lib/agent.ts, lines 124-133) -/

/-- The opening marker of a fenced SQL block in the regex
`/```sql\n([\s\S]*?)```/`. -/
def sqlOpenFence : List Char := "```sql\n".data

/-- The closing fence marker. -/
def tripleFence : List Char := "```".data

/-- Source lines 127-128: `finalResponse.match(/```sql\n([\s\S]*?)```/)`;
the extracted SQL is the trimmed capture, or the empty string when the
regex does not match.  Because every later occurrence of the opening
marker itself contains a closing fence, the regex matches iff a closing
fence follows the first opening marker, with the lazy capture ending at
the first closing fence. -/
def extractSql (answer : String) : String :=
  match splitOnFirst sqlOpenFence answer.data with
  | none => ""
  | some (_, rest) =>
    match splitOnFirst tripleFence rest with
    | none => ""
    | some (body, _) => String.mk (jsTrimList body)

/-- The structured agent result (`AgentResponse` in the source). -/
structure AgentResponse where
  explanation : String
  sql : String
  steps : List String
deriving Repr, DecidableEq

example : extractSql "x ```sql\nSELECT 1\n``` y" = "SELECT 1" := by decide
example : extractSql "no fenced block" = "" := by decide
example : extractSql "```sql\nSELECT 1" = "" := by decide

/-! ## Query endpoint (src/app/api/query/route.ts, `POST`) -/

/-- Result rows are opaque payloads for the purposes of the route logic. -/
def Row : Type := String
deriving instance Repr, DecidableEq for Row

/-- Outcome of the `supabase.rpc("execute_query", ...)` call: a result with
no error, a result carrying a database error, or a thrown exception. -/
inductive RpcOutcome where
  | ok (rows : Option (List Row))
  | dbError (rows : Option (List Row)) (message : String)
  | thrown
deriving Repr, DecidableEq

/-- The JSON body produced by the route; absent fields are `none`.  In the
`data` field, `some none` renders JSON `data: null` while `none` means the
field is absent. -/
structure ApiResponse where
  success : Bool
  error : Option String
  explanation : Option String
  sql : Option String
  steps : Option (List String)
  data : Option (Option (List Row))
  note : Option String
deriving Repr, DecidableEq

/-- Route line 38. -/
def extractionFailMsg : String :=
  "Could not extract SQL from the response. Please try rephrasing your question."

/-- Route line 92: the note attached when `executeError` is set. -/
def rpcNote (message : String) : String :=
  "SQL generated successfully. RPC error: " ++ message ++
    ". To execute queries directly, set up an execute_query RPC function in your Supabase project."

/-- Route lines 64-94: run the RPC and shape the response.  Both a database
error (`rpcResult.error` set) and a thrown exception (caught with message
`RPC not available`) set `executeError` and take the same `success: true`
branch with `data: null` and a note. -/
def executeBranch (r : AgentResponse) (rpc : RpcOutcome) : ApiResponse :=
  match rpc with
  | .ok rows =>
    { success := true, error := none, explanation := some r.explanation,
      sql := some r.sql, steps := some r.steps, data := some rows, note := none }
  | .dbError _ m =>
    { success := true, error := none, explanation := some r.explanation,
      sql := some r.sql, steps := some r.steps, data := some none,
      note := some (rpcNote m) }
  | .thrown =>
    { success := true, error := none, explanation := some r.explanation,
      sql := some r.sql, steps := some r.steps, data := some none,
      note := some (rpcNote "RPC not available") }

/-- The route's observable effect from the agent result onward: the JSON
response plus whether control ever reached the `validateSqlQuery` call. -/
structure PostOutput where
  response : ApiResponse
  validatorInvoked : Bool
deriving Repr, DecidableEq

/-- Route lines 34-102: extraction check, validation, then execution.
`!result.sql || result.sql.trim() === ""` collapses to emptiness of the
trimmed SQL. -/
def postHandler (r : AgentResponse) (rpc : RpcOutcome) : PostOutput :=
  if jsTrimStr r.sql = "" then
    { response :=
        { success := false, error := some extractionFailMsg,
          explanation := some r.explanation, sql := none,
          steps := some r.steps, data := none, note := none },
      validatorInvoked := false }
  else
    let validation := validateSqlQuery r.sql
    if !validation.valid then
      { response :=
          { success := false, error := validation.error,
            explanation := some r.explanation, sql := some r.sql,
            steps := some r.steps, data := none, note := none },
        validatorInvoked := true }
    else
      { response := executeBranch r rpc, validatorInvoked := true }

/-- Route line 69: `result.sql.trim().replace(/;+$/, "")` — drop the maximal
run of trailing semicolons from the trimmed SQL. -/
def removeTrailingSemis (l : List Char) : List Char :=
  (l.reverse.dropWhile (fun c => c == ';')).reverse

/-- The SQL actually submitted to the execution RPC. -/
def cleanSql (sql : String) : List Char :=
  removeTrailingSemis (jsTrimList sql.data)

/-! ## Schema materializer (src/lib/schema.ts, `schemaToFiles`) -/

/-- `TableInfo` from src/lib/types.ts. -/
structure TableInfo where
  table_schema : String
  table_name : String
  table_type : String
deriving Repr, DecidableEq

/-- `ColumnInfo` from src/lib/types.ts. -/
structure ColumnInfo where
  table_schema : String
  table_name : String
  column_name : String
  data_type : String
  is_nullable : String
  column_default : Option String
  character_maximum_length : Option Nat
deriving Repr, DecidableEq

/-- `ForeignKeyInfo` from src/lib/types.ts. -/
structure ForeignKeyInfo where
  constraint_name : String
  table_schema : String
  table_name : String
  column_name : String
  foreign_table_schema : String
  foreign_table_name : String
  foreign_column_name : String
deriving Repr, DecidableEq

/-- `SchemaInfo` from src/lib/types.ts (the spec's SchemaDescription). -/
structure SchemaInfo where
  tables : List TableInfo
  columns : List ColumnInfo
  foreignKeys : List ForeignKeyInfo
deriving Repr, DecidableEq

/-- A `Record<string, string>` modelled extensionally by its lookup
function; `recordSet` is JavaScript property assignment. -/
def DocumentSet : Type := String → Option String

/-- `files[k] = v`. -/
def recordSet (r : DocumentSet) (k v : String) : DocumentSet :=
  fun q => if q = k then some v else r q

/-- The empty record `{}`. -/
def emptyRecord : DocumentSet := fun _ => none

/-- Schema lines 149 and 193: `schema.columns.filter(c => c.table_name === table.table_name)`. -/
def columnsFor (schema : SchemaInfo) (name : String) : List ColumnInfo :=
  schema.columns.filter (fun c => c.table_name == name)

/-- Schema line 150: foreign keys whose owning table matches. -/
def fksFor (schema : SchemaInfo) (name : String) : List ForeignKeyInfo :=
  schema.foreignKeys.filter (fun fk => fk.table_name == name)

/-- Schema lines 140-144: one overview line per table. -/
def overviewLine (t : TableInfo) : String :=
  "- " ++ t.table_name ++ " (" ++ t.table_type ++ ")\n"

/-- Schema lines 140-145: the overview document. -/
def overviewDoc (schema : SchemaInfo) : String :=
  "# Database Schema Overview\n\n## Tables\n\n" ++ concatMap overviewLine schema.tables

/-- Schema lines 160-163: one markdown row per column;
`col.column_default || "-"` maps both `null` and `""` to `"-"`. -/
def columnRow (c : ColumnInfo) : String :=
  "| " ++ c.column_name ++ " | " ++ c.data_type ++ " | " ++
    (if c.is_nullable == "YES" then "Yes" else "No") ++ " | " ++
    (match c.column_default with
     | none => "-"
     | some d => if d == "" then "-" else d) ++ " |\n"

/-- Schema lines 152-154: the per-table header. -/
def tableHeaderText (t : TableInfo) : String :=
  "# Table: " ++ t.table_name ++ "\n\n" ++
    "Type: " ++ t.table_type ++ "\n" ++
    "Schema: " ++ t.table_schema ++ "\n\n"

/-- Schema lines 156-158: the column-table heading and separator; with no
columns this is the whole (empty) column table. -/
def emptyColumnsBlock : String :=
  "## Columns\n\n| Column | Type | Nullable | Default |\n|--------|------|----------|--------|\n"

/-- Schema line 169: one foreign-key line of a table document. -/
def fkLine (fk : ForeignKeyInfo) : String :=
  "- " ++ fk.column_name ++ " → " ++ fk.foreign_table_name ++ "." ++
    fk.foreign_column_name ++ "\n"

/-- Schema lines 166-171: the foreign-key section, present only when some
foreign key's owning table matches. -/
def fkBlock (schema : SchemaInfo) (name : String) : String :=
  if (fksFor schema name).length > 0 then
    "\n## Foreign Keys\n\n" ++ concatMap fkLine (fksFor schema name)
  else ""

/-- Schema lines 148-173: the full per-table document. -/
def tableDoc (schema : SchemaInfo) (t : TableInfo) : String :=
  tableHeaderText t ++ emptyColumnsBlock ++
    concatMap columnRow (columnsFor schema t.table_name) ++
    fkBlock schema t.table_name

/-- Schema line 173: the key of a table document. -/
def tableDocPath (name : String) : String :=
  "schema/tables/" ++ name ++ ".md"

/-- Schema line 182: one line of the relationships document. -/
def relationshipLine (fk : ForeignKeyInfo) : String :=
  "- " ++ fk.table_name ++ "." ++ fk.column_name ++ " → " ++
    fk.foreign_table_name ++ "." ++ fk.foreign_column_name ++ "\n"

/-- Schema lines 177-186: the relationships document body. -/
def relationshipsDoc (schema : SchemaInfo) : String :=
  "# Table Relationships\n\n## Foreign Key Relationships\n\n" ++
    concatMap relationshipLine schema.foreignKeys

/-- Schema lines 192-197: one summary entry per table
(`tableColumns.map(...).join("\n")`). -/
def summaryEntry (schema : SchemaInfo) (t : TableInfo) : String :=
  "### " ++ t.table_name ++ "\n" ++
    joinSep "\n" ((columnsFor schema t.table_name).map
      (fun c => "- " ++ c.column_name ++ " (" ++ c.data_type ++ ")")) ++
    "\n\n"

/-- Schema lines 189-199: the summary document. -/
def summaryDoc (schema : SchemaInfo) : String :=
  "# Quick Reference\n\n## All Tables and Columns\n\n" ++
    concatMap (summaryEntry schema) schema.tables

/-- Schema lines 136-202: `schemaToFiles`, assigning the overview, the
per-table documents, the relationships document (only when foreign keys
exist) and the summary, in source order. -/
def schemaToFiles (schema : SchemaInfo) : DocumentSet :=
  let f1 := recordSet emptyRecord "schema/overview.md" (overviewDoc schema)
  let f2 := schema.tables.foldl
    (fun fs t => recordSet fs (tableDocPath t.table_name) (tableDoc schema t)) f1
  let f3 :=
    if schema.foreignKeys.length > 0 then
      recordSet f2 "schema/relationships.md" (relationshipsDoc schema)
    else f2
  recordSet f3 "schema/summary.md" (summaryDoc schema)

/-! ## Agent loop (src/lib/agent.ts, `createQueryAgent`)

The tool-calling loop itself lives in the external `ai` SDK
(`generateText` with `stopWhen: stepCountIs(10)`).  Modelled from the
spec: the provider repeatedly either invokes one capability (an
intermediate step) or returns a final answer; the loop stops at the final
answer or after `stepBudget` intermediate steps, whichever comes first.
The step-log rendering below it is translated from source lines 104-122. -/

/-- A tool invocation as the source distinguishes them. -/
inductive ToolCall where
  | bash (cmd : String)
  | readFile (path : String)
  | other (name : String)
deriving Repr, DecidableEq

/-- One provider turn: invoke a capability or return the final text. -/
inductive ProviderTurn where
  | invoke (tc : ToolCall)
  | final (text : String)
deriving Repr, DecidableEq

/-- The provider-side result: recorded tool-call steps plus final text. -/
structure GenResult where
  steps : List ToolCall
  text : String
deriving Repr, DecidableEq

/-- Modelled from the spec: the bounded `generateText` loop.  `budget` is
the remaining step budget; on exhaustion the text produced so far (`acc`)
stands in as the final answer. -/
def runLoop : Nat → List ProviderTurn → List ToolCall → String → GenResult
  | _, [], acc, accText => { steps := acc.reverse, text := accText }
  | _, .final t :: _, acc, _ => { steps := acc.reverse, text := t }
  | 0, .invoke _ :: _, acc, accText => { steps := acc.reverse, text := accText }
  | b + 1, .invoke tc :: rest, acc, accText => runLoop b rest (tc :: acc) accText

/-- Source line 101: `stopWhen: stepCountIs(10)`. -/
def stepBudget : Nat := 10

/-- Source lines 108-121: render one tool call as a step-log line. -/
def renderToolCall : ToolCall → String
  | .bash cmd => "$ " ++ cmd
  | .readFile p => "$ cat " ++ p
  | .other n => "[" ++ n ++ "] executed"

/-- Source lines 104-122: the step log recorded for a run of the loop. -/
def agentStepLog (turns : List ProviderTurn) : List String :=
  (runLoop stepBudget turns [] "").steps.map renderToolCall

/-- Source lines 124-128: the SQL extracted from a run of the loop. -/
def agentSql (turns : List ProviderTurn) : String :=
  extractSql (runLoop stepBudget turns [] "").text

/-! ## Generic lemmas about the scanning helpers -/

theorem strDataAppend (a b : String) : (a ++ b).data = a.data ++ b.data := rfl

theorem strAppendNil (a : String) : a ++ "" = a := by
  cases a
  show String.mk _ = _
  simp

theorem startsWithList_iff (l p : List Char) : startsWithList l p = true ↔ p <+: l := by
  induction p generalizing l with
  | nil => simp [startsWithList, List.nil_prefix]
  | cons q ps ih =>
    cases l with
    | nil => simp [startsWithList, List.prefix_nil]
    | cons c cs =>
      show (c == q && startsWithList cs ps) = true ↔ _
      rw [Bool.and_eq_true, beq_iff_eq, List.cons_prefix_cons, ih]
      constructor
      · rintro ⟨h1, h2⟩; exact ⟨h1.symm, h2⟩
      · rintro ⟨h1, h2⟩; exact ⟨h1.symm, h2⟩

theorem startsWithList_append (l e p : List Char) (h : startsWithList l p = true) :
    startsWithList (l ++ e) p = true := by
  rw [startsWithList_iff] at h ⊢
  exact h.trans (List.prefix_append l e)

theorem startsWithList_self (p : List Char) : startsWithList p p = true := by
  rw [startsWithList_iff]

theorem containsSub_of_decomp (a p b : List Char) :
    containsSub (a ++ p ++ b) p = true := by
  induction a with
  | nil =>
    rw [List.nil_append]
    cases p with
    | nil => cases b <;> simp [containsSub, startsWithList]
    | cons x xs =>
      have h1 : startsWithList ((x :: xs) ++ b) (x :: xs) = true :=
        startsWithList_append _ _ _ (startsWithList_self (x :: xs))
      show (startsWithList ((x :: xs) ++ b) (x :: xs) || containsSub (xs ++ b) (x :: xs)) = true
      rw [h1, Bool.true_or]
  | cons c a ih =>
    show (startsWithList _ p || containsSub (a ++ p ++ b) p) = true
    rw [Bool.or_eq_true]
    exact Or.inr ih

theorem containsSub_decomp {l p : List Char} (h : containsSub l p = true) :
    ∃ a b, l = a ++ p ++ b := by
  induction l with
  | nil =>
    refine ⟨[], [], ?_⟩
    cases p with
    | nil => rfl
    | cons x xs => simp [containsSub, startsWithList] at h
  | cons c rest ih =>
    rw [containsSub, Bool.or_eq_true] at h
    rcases h with h | h
    · rw [startsWithList_iff] at h
      obtain ⟨b, hb⟩ := h
      exact ⟨[], b, hb.symm⟩
    · obtain ⟨a, b, hab⟩ := ih h
      exact ⟨c :: a, b, by simp [hab]⟩

theorem splitOnFirst_none {pat l : List Char} (h : containsSub l pat = false) :
    splitOnFirst pat l = none := by
  induction l with
  | nil => simpa [containsSub, splitOnFirst] using h
  | cons c rest ih =>
    rw [containsSub, Bool.or_eq_false_iff] at h
    rw [splitOnFirst, if_neg (by simp [h.1]), ih h.2]

theorem splitOnFirst_some {pat l a b : List Char} (hpat : pat ≠ [])
    (h : splitOnFirst pat l = some (a, b)) :
    l = a ++ pat ++ b ∧ containsSub a pat = false := by
  induction l generalizing a b with
  | nil =>
    rw [splitOnFirst] at h
    cases hp : pat with
    | nil => exact absurd hp hpat
    | cons x xs => rw [hp] at h; simp [startsWithList] at h
  | cons c rest ih =>
    rw [splitOnFirst] at h
    by_cases hsw : startsWithList (c :: rest) pat = true
    · rw [if_pos hsw] at h
      rw [startsWithList_iff] at hsw
      obtain ⟨tail, htail⟩ := hsw
      injection h with h
      injection h with h1 h2
      subst h1
      constructor
      · subst h2
        rw [List.nil_append, ← htail, List.drop_left]
      · cases hp : pat with
        | nil => exact absurd hp hpat
        | cons x xs => simp [containsSub, startsWithList]
    · rw [if_neg hsw] at h
      cases hs : splitOnFirst pat rest with
      | none => rw [hs] at h; simp at h
      | some ab =>
        obtain ⟨a0, b0⟩ := ab
        rw [hs] at h
        simp only [Option.some.injEq, Prod.mk.injEq] at h
        obtain ⟨ha, hb⟩ := h
        obtain ⟨hrest, hcont⟩ := ih hs
        subst hb
        constructor
        · rw [← ha]; simp [hrest]
        · rw [← ha, containsSub, Bool.or_eq_false_iff]
          refine ⟨?_, hcont⟩
          rw [Bool.eq_false_iff]
          intro hsw2
          apply hsw
          have := startsWithList_append (c :: a0) (pat ++ b0) pat hsw2
          simpa [hrest] using this

/-! ## Validator branch lemmas -/

theorem validate_start_fail {sql : String} (h : startOk (normalizeSql sql) = false) :
    validateSqlQuery sql = { valid := false, error := some startRuleMsg } := by
  unfold validateSqlQuery
  simp [h]

theorem validate_keyword_fail {sql : String} {kw : String}
    (h1 : startOk (normalizeSql sql) = true)
    (h2 : findDangerous (normalizeSql sql) = some kw) :
    validateSqlQuery sql = { valid := false, error := some (keywordRuleMsg kw) } := by
  unfold validateSqlQuery
  simp [h1, h2]

theorem validate_semicolon_fail {sql : String}
    (h1 : startOk (normalizeSql sql) = true)
    (h2 : findDangerous (normalizeSql sql) = none)
    (h3 : (stripQuotes (normalizeSql sql)).contains ';' = true) :
    validateSqlQuery sql = { valid := false, error := some multiStmtMsg } := by
  have h3m : ';' ∈ stripQuotes (normalizeSql sql) := by simpa using h3
  unfold validateSqlQuery
  simp [h1, h2, h3m]

theorem validate_comment_fail {sql : String}
    (h1 : startOk (normalizeSql sql) = true)
    (h2 : findDangerous (normalizeSql sql) = none)
    (h3 : (stripQuotes (normalizeSql sql)).contains ';' = false)
    (h4 : (containsSub (normalizeSql sql) "--".data || containsSub (normalizeSql sql) "/*".data)
      = true) :
    validateSqlQuery sql = { valid := false, error := some commentsMsg } := by
  have h3m : ';' ∉ stripQuotes (normalizeSql sql) := by simpa using h3
  have h4m : containsSub (normalizeSql sql) "--".data = true ∨
      containsSub (normalizeSql sql) "/*".data = true := by simpa using h4
  unfold validateSqlQuery
  simp [h1, h2, h3m, h4m]

theorem validate_valid_imp {sql : String} (h : (validateSqlQuery sql).valid = true) :
    startOk (normalizeSql sql) = true ∧
    findDangerous (normalizeSql sql) = none ∧
    (stripQuotes (normalizeSql sql)).contains ';' = false ∧
    containsSub (normalizeSql sql) "--".data = false ∧
    containsSub (normalizeSql sql) "/*".data = false := by
  cases h1 : startOk (normalizeSql sql) with
  | false => rw [validate_start_fail h1] at h; exact absurd h (by simp)
  | true =>
    cases h2 : findDangerous (normalizeSql sql) with
    | some kw => rw [validate_keyword_fail h1 h2] at h; exact absurd h (by simp)
    | none =>
      cases h3 : (stripQuotes (normalizeSql sql)).contains ';' with
      | true => rw [validate_semicolon_fail h1 h2 h3] at h; exact absurd h (by simp)
      | false =>
        cases h4 : containsSub (normalizeSql sql) "--".data with
        | true =>
          rw [validate_comment_fail h1 h2 h3 (by rw [h4]; rfl)] at h
          exact absurd h (by simp)
        | false =>
          cases h5 : containsSub (normalizeSql sql) "/*".data with
          | true =>
            rw [validate_comment_fail h1 h2 h3 (by rw [h4, h5]; rfl)] at h
            exact absurd h (by simp)
          | false => exact ⟨rfl, rfl, rfl, rfl, rfl⟩

/-- No forbidden keyword is prefix-compatible with `SELECT` or `WITH`:
a normalized query beginning with a keyword fails the start rule. -/
theorem dangerous_not_select_compatible :
    ∀ kw ∈ dangerousKeywords,
      ¬(kw.data <+: "SELECT".data ∨ "SELECT".data <+: kw.data) ∧
      ¬(kw.data <+: "WITH".data ∨ "WITH".data <+: kw.data) := by decide

/-! ## Claim C1 -/

/-- C1 counterexample: for `DROP TABLE users;`, which begins with the
mutating keyword `DROP`, the validator's reason is the generic start-rule
message, which does not name (or even contain) the keyword `DROP`. -/
theorem start_rule_message_lacks_keyword_cex :
    validateSqlQuery "DROP TABLE users;" =
      { valid := false, error := some startRuleMsg } ∧
    containsSub startRuleMsg.data "DROP".data = false := by decide

/-- C1 (amended): every SQL string whose normalized text begins with one of
the mutating keywords is rejected, but with the start-rule reason
(`Only SELECT queries are allowed. Query must start with SELECT or WITH.`),
not a reason naming the keyword; keyword-naming reasons arise only for
queries that start with `SELECT` or `WITH`. -/
theorem mutating_start_rejected_by_start_rule (sql kw : String)
    (hkw : kw ∈ dangerousKeywords)
    (hpre : startsWithList (normalizeSql sql) kw.data = true) :
    validateSqlQuery sql = { valid := false, error := some startRuleMsg } := by
  apply validate_start_fail
  rw [startsWithList_iff] at hpre
  have hsel : startsWithList (normalizeSql sql) "SELECT".data = false := by
    rw [Bool.eq_false_iff]
    intro hx
    rw [startsWithList_iff] at hx
    exact (dangerous_not_select_compatible kw hkw).1
      (List.prefix_or_prefix_of_prefix hpre hx)
  have hwith : startsWithList (normalizeSql sql) "WITH".data = false := by
    rw [Bool.eq_false_iff]
    intro hx
    rw [startsWithList_iff] at hx
    exact (dangerous_not_select_compatible kw hkw).2
      (List.prefix_or_prefix_of_prefix hpre hx)
  rw [startOk, hsel, hwith]
  rfl

/-- C1 witness: the amended theorem applied to `DROP TABLE users;`. -/
theorem mutating_start_rejected_by_start_rule_w :
    validateSqlQuery "DROP TABLE users;" =
      { valid := false, error := some startRuleMsg } :=
  mutating_start_rejected_by_start_rule "DROP TABLE users;" "DROP"
    (by decide) (by decide)

/-! ## Claim C3 -/

/-- C3 counterexample: `SELECT 1; --` contains `--` and begins with a
syntactically valid `SELECT` prefix, yet the validator's reason cites
multiple statements, not comments (the semicolon rule runs first). -/
theorem comment_not_cited_cex :
    containsSub (normalizeSql "SELECT 1; --") "--".data = true ∧
    startOk (normalizeSql "SELECT 1; --") = true ∧
    validateSqlQuery "SELECT 1; --" =
      { valid := false, error := some multiStmtMsg } ∧
    multiStmtMsg ≠ commentsMsg := by decide

/-- C3 (amended): every input whose normalized text contains `--` or `/*`
is rejected, and the reason cites comments precisely when no earlier rule
fired (the query starts with SELECT/WITH, contains no forbidden keyword,
and has no residual semicolon after quote stripping). -/
theorem comment_markers_always_rejected (sql : String)
    (h : containsSub (normalizeSql sql) "--".data = true ∨
         containsSub (normalizeSql sql) "/*".data = true) :
    (validateSqlQuery sql).valid = false ∧
    (startOk (normalizeSql sql) = true →
      findDangerous (normalizeSql sql) = none →
      (stripQuotes (normalizeSql sql)).contains ';' = false →
      (validateSqlQuery sql).error = some commentsMsg) := by
  have h4 : (containsSub (normalizeSql sql) "--".data
      || containsSub (normalizeSql sql) "/*".data) = true := by
    rcases h with h | h <;> simp [h]
  constructor
  · by_cases h1 : startOk (normalizeSql sql) = true
    · cases h2 : findDangerous (normalizeSql sql) with
      | some kw => rw [validate_keyword_fail h1 h2]
      | none =>
        by_cases h3 : (stripQuotes (normalizeSql sql)).contains ';' = true
        · rw [validate_semicolon_fail h1 h2 h3]
        · rw [validate_comment_fail h1 h2 (Bool.not_eq_true _ ▸ h3) h4]
    · rw [validate_start_fail (Bool.not_eq_true _ ▸ h1)]
  · intro h1 h2 h3
    rw [validate_comment_fail h1 h2 h3 h4]

/-- C3 witness: `SELECT a -- b` passes the earlier rules, so its rejection
reason cites comments. -/
theorem comment_markers_always_rejected_w :
    (validateSqlQuery "SELECT a -- b").valid = false ∧
    (validateSqlQuery "SELECT a -- b").error = some commentsMsg := by
  have h := comment_markers_always_rejected "SELECT a -- b" (Or.inl (by decide))
  exact ⟨h.1, h.2 (by decide) (by decide) (by decide)⟩

/-! ## Claim C4 -/

/-- C4 counterexample: `SELECT 1; DROP TABLE T` keeps a semicolon after
quote stripping, yet the validator's reason names the keyword `DROP`
(the keyword rule runs before the multiple-statement rule), so the
rejection does not cite multiple statements. -/
theorem residual_semicolon_reason_cex :
    (stripQuotes (normalizeSql "SELECT 1; DROP TABLE T")).contains ';' = true ∧
    validateSqlQuery "SELECT 1; DROP TABLE T" =
      { valid := false, error := some (keywordRuleMsg "DROP") } ∧
    keywordRuleMsg "DROP" ≠ multiStmtMsg := by decide

/-- C4 (amended): every input whose quote-stripped normalized text still
contains a semicolon is rejected, with the multiple-statement reason
precisely when no earlier rule fired; and the single literal
`SELECT 'a;b'` (semicolon only inside the quoted span) is accepted. -/
theorem residual_semicolon_rejected :
    (∀ sql : String, (stripQuotes (normalizeSql sql)).contains ';' = true →
      (validateSqlQuery sql).valid = false ∧
      (startOk (normalizeSql sql) = true →
        findDangerous (normalizeSql sql) = none →
        (validateSqlQuery sql).error = some multiStmtMsg)) ∧
    validateSqlQuery ("SELECT " ++ String.mk [squote] ++ "a;b" ++ String.mk [squote]) =
      { valid := true, error := none } := by
  constructor
  · intro sql h3
    constructor
    · by_cases h1 : startOk (normalizeSql sql) = true
      · cases h2 : findDangerous (normalizeSql sql) with
        | some kw => rw [validate_keyword_fail h1 h2]
        | none => rw [validate_semicolon_fail h1 h2 h3]
      · rw [validate_start_fail (Bool.not_eq_true _ ▸ h1)]
    · intro h1 h2
      rw [validate_semicolon_fail h1 h2 h3]
  · decide

/-- C4 witness: `SELECT 1; SELECT 2;` is rejected citing multiple
statements. -/
theorem residual_semicolon_rejected_w :
    (validateSqlQuery "SELECT 1; SELECT 2;").valid = false ∧
    (validateSqlQuery "SELECT 1; SELECT 2;").error = some multiStmtMsg := by
  have h := residual_semicolon_rejected.1 "SELECT 1; SELECT 2;" (by decide)
  exact ⟨h.1, h.2 (by decide) (by decide)⟩

/-! ## Trailing-semicolon lemmas (claim C10) -/

theorem getLast?_cons_of_getLast? {α : Type} {l : List α} {c x : α}
    (h : l.getLast? = some c) : (x :: l).getLast? = some c := by
  cases l with
  | nil => simp at h
  | cons y ys => rw [List.getLast?_cons_cons]; exact h

/-- Quote stripping preserves a final character different from the quote,
in both scanning states. -/
theorem stripQuotedAux_getLast {q c : Char} (hcq : (c == q) = false) :
    ∀ l : List Char, l.getLast? = some c →
      (∀ b : List Char, (stripQuotedAux q l (some b)).getLast? = some c) ∧
      (stripQuotedAux q l none).getLast? = some c := by
  intro l
  induction l with
  | nil => intro h; simp at h
  | cons x xs ih =>
    intro h
    cases xs with
    | nil =>
      simp at h
      subst h
      constructor
      · intro b
        show (stripQuotedAux q [x] (some b)).getLast? = some x
        rw [stripQuotedAux, if_neg (by simp_all)]
        show ((x :: b).reverse).getLast? = some x
        rw [List.reverse_cons, List.getLast?_concat]
      · show (stripQuotedAux q [x] none).getLast? = some x
        rw [stripQuotedAux, if_neg (by simp_all)]
        rfl
    | cons y ys =>
      rw [List.getLast?_cons_cons] at h
      have ihs := ih h
      constructor
      · intro b
        show (stripQuotedAux q (x :: y :: ys) (some b)).getLast? = some c
        rw [stripQuotedAux]
        by_cases hx : (x == q) = true
        · rw [if_pos hx]; exact ihs.2
        · rw [if_neg hx]; exact ihs.1 (x :: b)
      · show (stripQuotedAux q (x :: y :: ys) none).getLast? = some c
        rw [stripQuotedAux]
        by_cases hx : (x == q) = true
        · rw [if_pos hx]; exact ihs.1 [x]
        · rw [if_neg hx]; exact getLast?_cons_of_getLast? ihs.2

theorem contains_of_getLast? {l : List Char} {c : Char}
    (h : l.getLast? = some c) : l.contains c = true := by
  have hm : c ∈ l := by
    cases l with
    | nil => simp at h
    | cons x xs => exact List.mem_of_mem_getLast? h
  simpa using hm

theorem removeTrailingSemis_id {l : List Char} (h : l.getLast? ≠ some ';') :
    removeTrailingSemis l = l := by
  unfold removeTrailingSemis
  cases hr : l.reverse with
  | nil =>
    have : l = [] := by simpa using congrArg List.reverse hr
    subst this
    rfl
  | cons x xs =>
    have hx : x ≠ ';' := by
      intro hx
      apply h
      rw [← List.head?_reverse, hr, hx]
      rfl
    rw [List.dropWhile_cons, if_neg (by simp [hx]), ← hr, List.reverse_reverse]

/-! ## Claim C10 -/

/-- C10: the execution bridge's trailing-semicolon removal is the identity
on every validated query, because a query whose trimmed text ends in `;`
keeps that semicolon through quote stripping and is rejected by the
multiple-statement rule; and `SELECT 1;` is indeed rejected by that rule
before execution is reached. -/
theorem validated_sql_trailing_semis_identity :
    (∀ sql : String, (validateSqlQuery sql).valid = true →
      (jsTrimList sql.data).getLast? ≠ some ';' ∧ cleanSql sql = jsTrimList sql.data) ∧
    validateSqlQuery "SELECT 1;" = { valid := false, error := some multiStmtMsg } := by
  constructor
  · intro sql hvalid
    have hsemi := (validate_valid_imp hvalid).2.2.1
    have hlast : (jsTrimList sql.data).getLast? ≠ some ';' := by
      intro hl
      have hnorm : (normalizeSql sql).getLast? = some ';' := by
        rw [normalizeSql, List.getLast?_map, hl]
        decide
      have h1 : (stripQuoted squote (normalizeSql sql)).getLast? = some ';' :=
        (stripQuotedAux_getLast (q := squote) (c := ';') (by decide)
          (normalizeSql sql) hnorm).2
      have h2 : (stripQuotes (normalizeSql sql)).getLast? = some ';' :=
        (stripQuotedAux_getLast (q := dquote) (c := ';') (by decide)
          (stripQuoted squote (normalizeSql sql)) h1).2
      rw [contains_of_getLast? h2] at hsemi
      exact absurd hsemi (by simp)
    exact ⟨hlast, removeTrailingSemis_id hlast⟩
  · decide

/-- C10 witness: `SELECT 1` is validated and the bridge's semicolon
stripping leaves its trimmed text unchanged. -/
theorem validated_sql_trailing_semis_identity_w :
    (jsTrimList "SELECT 1".data).getLast? ≠ some ';' ∧
    cleanSql "SELECT 1" = jsTrimList "SELECT 1".data :=
  validated_sql_trailing_semis_identity.1 "SELECT 1" (by decide)

/-! ## Claim C8 -/

/-- C8: the extracted SQL is the trimmed contents of the first fenced SQL
block.  First conjunct: when the opening marker occurs nowhere, the
extracted SQL is the empty string.  Second conjunct: a non-empty extraction
exhibits the decomposition around the first opening marker and the first
closing fence after it, with the SQL equal to the trimmed block body. -/
theorem extractSql_first_fenced_block (answer : String) :
    (containsSub answer.data sqlOpenFence = false → extractSql answer = "") ∧
    (extractSql answer ≠ "" →
      ∃ a body b, answer.data = a ++ sqlOpenFence ++ body ++ tripleFence ++ b ∧
        containsSub a sqlOpenFence = false ∧
        containsSub body tripleFence = false ∧
        extractSql answer = String.mk (jsTrimList body)) := by
  constructor
  · intro h
    unfold extractSql
    rw [splitOnFirst_none h]
  · intro hne
    cases h1 : splitOnFirst sqlOpenFence answer.data with
    | none =>
      exact absurd (by unfold extractSql; simp only [h1]) hne
    | some pr =>
      obtain ⟨a, rest⟩ := pr
      obtain ⟨hdec1, hnc1⟩ := splitOnFirst_some (by decide) h1
      cases h2 : splitOnFirst tripleFence rest with
      | none =>
        exact absurd (by unfold extractSql; simp only [h1, h2]) hne
      | some pr2 =>
        obtain ⟨body, tail⟩ := pr2
        obtain ⟨hdec2, hnc2⟩ := splitOnFirst_some (by decide) h2
        have hval : extractSql answer = String.mk (jsTrimList body) := by
          unfold extractSql
          simp only [h1, h2]
        refine ⟨a, body, tail, ?_, hnc1, hnc2, hval⟩
        rw [hdec1, hdec2]
        simp [List.append_assoc]

/-- C8 witness: an answer with no fenced SQL block extracts to the empty
string. -/
theorem extractSql_first_fenced_block_w :
    extractSql "I could not find a relevant table." = "" :=
  (extractSql_first_fenced_block "I could not find a relevant table.").1 (by decide)

/-! ## Claim C5 -/

/-- C5: when the provider's answer has no fenced SQL block, the extracted
SQL is empty, the endpoint responds `success=false` with the
extraction-failure message together with the explanation and step log, and
control never reaches the validator. -/
theorem extraction_failure_skips_validator (answer expl : String)
    (stepsLog : List String) (rpc : RpcOutcome)
    (hnof : containsSub answer.data sqlOpenFence = false) :
    extractSql answer = "" ∧
    postHandler { explanation := expl, sql := extractSql answer, steps := stepsLog } rpc =
      { response :=
          { success := false, error := some extractionFailMsg,
            explanation := some expl, sql := none, steps := some stepsLog,
            data := none, note := none },
        validatorInvoked := false } := by
  have hsql : extractSql answer = "" := by
    unfold extractSql
    rw [splitOnFirst_none hnof]
  refine ⟨hsql, ?_⟩
  unfold postHandler
  rw [if_pos ?_]
  show jsTrimStr (AgentResponse.mk expl (extractSql answer) stepsLog).sql = ""
  rw [show (AgentResponse.mk expl (extractSql answer) stepsLog).sql = extractSql answer from rfl,
    hsql]
  rfl

/-- C5 witness: a concrete block-free answer takes the extraction-failure
path without invoking the validator. -/
theorem extraction_failure_skips_validator_w :
    extractSql "Sorry, I cannot answer that." = "" ∧
    postHandler
        { explanation := "no tables matched",
          sql := extractSql "Sorry, I cannot answer that.",
          steps := ["$ ls schema/"] } .thrown =
      { response :=
          { success := false, error := some extractionFailMsg,
            explanation := some "no tables matched", sql := none,
            steps := some ["$ ls schema/"], data := none, note := none },
        validatorInvoked := false } :=
  extraction_failure_skips_validator "Sorry, I cannot answer that."
    "no tables matched" ["$ ls schema/"] .thrown (by decide)

/-! ## Claim C2 -/

/-- C2 counterexample: with a validated query, a database error
(`rpcResult.error` set, here `permission denied ...`) produces a response
with `success = true`, no `error` field and `data: null` — exactly the
execution-unavailable shape; it coincides with the response of the
RPC-unavailable case except for the message text inside the note.  The two
outcomes are therefore conflated, not distinct. -/
theorem execution_error_conflated_cex :
    (postHandler { explanation := "e", sql := "SELECT 1", steps := [] }
        (.dbError none "permission denied for table users")).response.success = true ∧
    (postHandler { explanation := "e", sql := "SELECT 1", steps := [] }
        (.dbError none "permission denied for table users")).response.error = none ∧
    (postHandler { explanation := "e", sql := "SELECT 1", steps := [] }
        (.dbError none "permission denied for table users")).response.data = some none ∧
    { (postHandler { explanation := "e", sql := "SELECT 1", steps := [] }
        (.dbError none "permission denied for table users")).response with note := none } =
    { (postHandler { explanation := "e", sql := "SELECT 1", steps := [] }
        .thrown).response with note := none } := by decide

/-- C2 (amended): when the execution capability runs and the database
reports an error, the route reports a soft success: `success = true`,
`data: null`, no error field, and a note that embeds the database's error
message; apart from that note text the response is identical to the one
produced when the execution RPC is unavailable, so the two outcomes are
distinguished only by the message inside the note. -/
theorem execution_error_soft_success (r : AgentResponse)
    (rows : Option (List Row)) (m : String)
    (h1 : jsTrimStr r.sql ≠ "") (h2 : (validateSqlQuery r.sql).valid = true) :
    (postHandler r (.dbError rows m)).response =
      { success := true, error := none, explanation := some r.explanation,
        sql := some r.sql, steps := some r.steps, data := some none,
        note := some (rpcNote m) } ∧
    containsSub (rpcNote m).data m.data = true ∧
    { (postHandler r (.dbError rows m)).response with note := none } =
    { (postHandler r .thrown).response with note := none } := by
  have hpost : ∀ rpc : RpcOutcome,
      postHandler r rpc = { response := executeBranch r rpc, validatorInvoked := true } := by
    intro rpc
    unfold postHandler
    rw [if_neg h1]
    simp only [h2, Bool.not_true, Bool.false_eq_true, if_false]
  refine ⟨?_, ?_, ?_⟩
  · rw [hpost]
    rfl
  · unfold rpcNote
    rw [strDataAppend, strDataAppend]
    exact containsSub_of_decomp _ _ _
  · rw [hpost, hpost]
    rfl

/-- C2 witness: a concrete database error yields the soft-success response
with the message embedded in the note. -/
theorem execution_error_soft_success_w :
    (postHandler { explanation := "e", sql := "SELECT 1", steps := [] }
        (.dbError none "syntax error at end of input")).response =
      { success := true, error := none, explanation := some "e",
        sql := some "SELECT 1", steps := some [],
        data := some none,
        note := some (rpcNote "syntax error at end of input") } ∧
    containsSub (rpcNote "syntax error at end of input").data
      "syntax error at end of input".data = true ∧
    { (postHandler { explanation := "e", sql := "SELECT 1", steps := [] }
        (.dbError none "syntax error at end of input")).response with note := none } =
    { (postHandler { explanation := "e", sql := "SELECT 1", steps := [] }
        .thrown).response with note := none } :=
  execution_error_soft_success { explanation := "e", sql := "SELECT 1", steps := [] }
    none "syntax error at end of input" (by decide) (by decide)

/-! ## Claim C6 -/

theorem runLoop_steps_le (turns : List ProviderTurn) :
    ∀ (b : Nat) (acc : List ToolCall) (t : String),
      (runLoop b turns acc t).steps.length ≤ acc.length + b := by
  induction turns with
  | nil => intro b acc t; simp [runLoop]
  | cons turn rest ih =>
    intro b acc t
    cases turn with
    | final s => simp [runLoop]
    | invoke tc =>
      cases b with
      | zero => simp [runLoop]
      | succ b =>
        have := ih b (tc :: acc) t
        calc (runLoop (b + 1) (.invoke tc :: rest) acc t).steps.length
            = (runLoop b rest (tc :: acc) t).steps.length := rfl
          _ ≤ (tc :: acc).length + b := this
          _ = acc.length + (b + 1) := by simp [List.length_cons]; omega

/-- C6: the agent records at most `stepBudget` (= 10) step-log entries,
however many capability invocations the provider attempts. -/
theorem agent_step_log_bounded (turns : List ProviderTurn) :
    (agentStepLog turns).length ≤ stepBudget := by
  unfold agentStepLog
  rw [List.length_map]
  simpa using runLoop_steps_le turns stepBudget [] ""

/-! ## Claim C7 -/

/-- C7: the materializer is deterministic — identical schema descriptions
yield document sets mapping the same paths to the same text.  In this
embedding `schemaToFiles` is a pure function of its argument, so equal
inputs give extensionally equal document sets. -/
theorem schemaToFiles_deterministic (s1 s2 : SchemaInfo) (h : s1 = s2) :
    ∀ p : String, schemaToFiles s1 p = schemaToFiles s2 p := by
  subst h
  intro p
  rfl

/-- C7 witness: two calls on one concrete schema agree on a path. -/
theorem schemaToFiles_deterministic_w :
    schemaToFiles
        (SchemaInfo.mk [TableInfo.mk "public" "users" "BASE TABLE"] [] [])
        "schema/overview.md" =
      schemaToFiles
        (SchemaInfo.mk [TableInfo.mk "public" "users" "BASE TABLE"] [] [])
        "schema/overview.md" :=
  schemaToFiles_deterministic _ _ rfl "schema/overview.md"

/-! ## Document-set lookup lemmas (claim C9) -/

theorem tableDocPath_get7 (n : String) : (tableDocPath n).data[7]? = some 't' := by
  unfold tableDocPath
  rw [strDataAppend, strDataAppend, List.append_assoc]
  rw [List.getElem?_append_left (by decide)]
  decide

theorem tableDocPath_ne_overview (n : String) : tableDocPath n ≠ "schema/overview.md" := by
  intro h
  have h7 : (tableDocPath n).data[7]? = ("schema/overview.md" : String).data[7]? := by rw [h]
  rw [tableDocPath_get7] at h7
  exact absurd h7 (by decide)

theorem tableDocPath_ne_rel (n : String) : tableDocPath n ≠ "schema/relationships.md" := by
  intro h
  have h7 : (tableDocPath n).data[7]? = ("schema/relationships.md" : String).data[7]? := by
    rw [h]
  rw [tableDocPath_get7] at h7
  exact absurd h7 (by decide)

theorem tableDocPath_ne_summary (n : String) : tableDocPath n ≠ "schema/summary.md" := by
  intro h
  have h7 : (tableDocPath n).data[7]? = ("schema/summary.md" : String).data[7]? := by rw [h]
  rw [tableDocPath_get7] at h7
  exact absurd h7 (by decide)

theorem tableDocPath_inj {a b : String} (h : tableDocPath a = tableDocPath b) : a = b := by
  unfold tableDocPath at h
  have hd := congrArg String.data h
  simp only [strDataAppend] at hd
  exact String.ext (List.append_cancel_left (List.append_cancel_right hd))

theorem foldl_recordSet_get (s : SchemaInfo) (tabs : List TableInfo) :
    ∀ (f : DocumentSet) (q : String),
      (tabs.foldl (fun fs t => recordSet fs (tableDocPath t.table_name) (tableDoc s t)) f) q =
      (match tabs.reverse.find? (fun t => tableDocPath t.table_name == q) with
       | some u => some (tableDoc s u)
       | none => f q) := by
  induction tabs with
  | nil => intro f q; rfl
  | cons t ts ih =>
    intro f q
    rw [List.foldl_cons, ih, List.reverse_cons, List.find?_append]
    cases hf : ts.reverse.find? (fun u => tableDocPath u.table_name == q) with
    | some u => rfl
    | none =>
      show recordSet f (tableDocPath t.table_name) (tableDoc s t) q =
        (match Option.or none (List.find? (fun u => tableDocPath u.table_name == q) [t]) with
         | some u => some (tableDoc s u)
         | none => f q)
      rw [Option.none_or]
      by_cases hp : (tableDocPath t.table_name == q) = true
      · have hq : q = tableDocPath t.table_name := (beq_iff_eq.mp hp).symm
        have hfind : List.find? (fun u => tableDocPath u.table_name == q) [t] = some t := by
          simp [List.find?, hp]
        rw [hfind]
        show (if q = tableDocPath t.table_name then some (tableDoc s t) else f q) =
          some (tableDoc s t)
        rw [if_pos hq]
      · have hq : ¬(q = tableDocPath t.table_name) := by
          intro hq
          exact hp (beq_iff_eq.mpr hq.symm)
        have hp2 : (tableDocPath t.table_name == q) = false := by
          cases hx : (tableDocPath t.table_name == q) with
          | false => rfl
          | true => exact absurd hx hp
        have hfind : List.find? (fun u => tableDocPath u.table_name == q) [t] = none := by
          simp [List.find?, hp2]
        rw [hfind]
        show (if q = tableDocPath t.table_name then some (tableDoc s t) else f q) = f q
        rw [if_neg hq]

theorem schemaToFiles_table_lookup (s : SchemaInfo) (t : TableInfo) (ht : t ∈ s.tables) :
    ∃ u : TableInfo, u ∈ s.tables ∧ u.table_name = t.table_name ∧
      schemaToFiles s (tableDocPath t.table_name) = some (tableDoc s u) := by
  have hex : ∃ x ∈ s.tables.reverse,
      (fun u => tableDocPath u.table_name == tableDocPath t.table_name) x = true :=
    ⟨t, List.mem_reverse.mpr ht, by simp⟩
  have hsome := List.find?_isSome.mpr hex
  obtain ⟨u, hu⟩ := Option.isSome_iff_exists.mp hsome
  have hpu := List.find?_some hu
  have humem := List.mem_reverse.mp (List.mem_of_find?_eq_some hu)
  have hname : u.table_name = t.table_name := tableDocPath_inj (beq_iff_eq.mp hpu)
  refine ⟨u, humem, hname, ?_⟩
  show (recordSet _ "schema/summary.md" (summaryDoc s)) (tableDocPath t.table_name) =
    some (tableDoc s u)
  rw [recordSet, if_neg (tableDocPath_ne_summary _)]
  by_cases hfk : s.foreignKeys.length > 0
  · rw [if_pos hfk, recordSet, if_neg (tableDocPath_ne_rel _),
      foldl_recordSet_get, hu]
  · rw [if_neg hfk, foldl_recordSet_get, hu]

theorem schemaToFiles_overview_lookup (s : SchemaInfo) :
    schemaToFiles s "schema/overview.md" = some (overviewDoc s) := by
  have hnone : s.tables.reverse.find?
      (fun u => tableDocPath u.table_name == "schema/overview.md") = none := by
    rw [List.find?_eq_none]
    intro u _
    simp only [Bool.not_eq_true, beq_eq_false_iff_ne, ne_eq]
    exact tableDocPath_ne_overview u.table_name
  show (recordSet _ "schema/summary.md" (summaryDoc s)) "schema/overview.md" =
    some (overviewDoc s)
  rw [recordSet, if_neg (by decide)]
  by_cases hfk : s.foreignKeys.length > 0
  · rw [if_pos hfk, recordSet, if_neg (by decide), foldl_recordSet_get, hnone]
    rfl
  · rw [if_neg hfk, foldl_recordSet_get, hnone]
    rfl

theorem concatMap_infix {α : Type} (f : α → String) {x : α} {l : List α} (hx : x ∈ l) :
    ∃ a b, (concatMap f l).data = a ++ (f x).data ++ b := by
  induction l with
  | nil => cases hx
  | cons y ys ih =>
    rw [List.mem_cons] at hx
    rcases hx with rfl | hx
    · refine ⟨[], (concatMap f ys).data, ?_⟩
      show (f x ++ concatMap f ys).data = _
      rw [strDataAppend, List.nil_append]
    · obtain ⟨a, b, hab⟩ := ih hx
      refine ⟨(f y).data ++ a, b, ?_⟩
      show (f y ++ concatMap f ys).data = _
      rw [strDataAppend, hab]
      simp [List.append_assoc]

theorem overview_lists_table (s : SchemaInfo) (t : TableInfo) (ht : t ∈ s.tables) :
    containsSub (overviewDoc s).data (overviewLine t).data = true := by
  obtain ⟨a, b, hab⟩ := concatMap_infix overviewLine ht
  unfold overviewDoc
  rw [strDataAppend, hab]
  have := containsSub_of_decomp
    (("# Database Schema Overview\n\n## Tables\n\n" : String).data ++ a)
    (overviewLine t).data b
  simpa [List.append_assoc] using this

/-! ## Claim C9 -/

/-- C9: a table with zero columns still yields its own per-table document —
the stored text is the table header followed by the empty column table
(heading and separator row, no data rows) and any foreign-key section — and
the table is listed in the overview document.  (When several tables share a
name the stored document belongs to the last of them, which also has zero
columns; hence the document is exhibited through a table `u` of the same
name.) -/
theorem zero_column_table_document (s : SchemaInfo) (t : TableInfo)
    (ht : t ∈ s.tables) (hc : columnsFor s t.table_name = []) :
    (∃ u : TableInfo, u ∈ s.tables ∧ u.table_name = t.table_name ∧
      schemaToFiles s (tableDocPath t.table_name) =
        some (tableHeaderText u ++ emptyColumnsBlock ++ fkBlock s t.table_name)) ∧
    schemaToFiles s "schema/overview.md" = some (overviewDoc s) ∧
    containsSub (overviewDoc s).data (overviewLine t).data = true := by
  refine ⟨?_, schemaToFiles_overview_lookup s, overview_lists_table s t ht⟩
  obtain ⟨u, humem, hname, hdoc⟩ := schemaToFiles_table_lookup s t ht
  refine ⟨u, humem, hname, ?_⟩
  rw [hdoc]
  unfold tableDoc
  rw [hname, hc, concatMap, strAppendNil]

/-- C9 witness: a concrete schema whose only table has no columns. -/
theorem zero_column_table_document_w :
    (∃ u : TableInfo,
      u ∈ (SchemaInfo.mk [TableInfo.mk "public" "empty_t" "BASE TABLE"] [] []).tables ∧
      u.table_name = (TableInfo.mk "public" "empty_t" "BASE TABLE").table_name ∧
      schemaToFiles (SchemaInfo.mk [TableInfo.mk "public" "empty_t" "BASE TABLE"] [] [])
          (tableDocPath (TableInfo.mk "public" "empty_t" "BASE TABLE").table_name) =
        some (tableHeaderText u ++ emptyColumnsBlock ++
          fkBlock (SchemaInfo.mk [TableInfo.mk "public" "empty_t" "BASE TABLE"] [] [])
            (TableInfo.mk "public" "empty_t" "BASE TABLE").table_name)) ∧
    schemaToFiles (SchemaInfo.mk [TableInfo.mk "public" "empty_t" "BASE TABLE"] [] [])
        "schema/overview.md" =
      some (overviewDoc (SchemaInfo.mk [TableInfo.mk "public" "empty_t" "BASE TABLE"] [] [])) ∧
    containsSub
      (overviewDoc (SchemaInfo.mk [TableInfo.mk "public" "empty_t" "BASE TABLE"] [] [])).data
      (overviewLine (TableInfo.mk "public" "empty_t" "BASE TABLE")).data = true :=
  zero_column_table_document
    (SchemaInfo.mk [TableInfo.mk "public" "empty_t" "BASE TABLE"] [] [])
    (TableInfo.mk "public" "empty_t" "BASE TABLE")
    (by simp) (by decide)
